import Mathlib

/-!
Verification of the `fileview` autopilot loop (`scripts/autopilot_loop.py`).

This file gives a shallow embedding of the loop's core: the score engine
(`ecosystem_score`, `momentum_score`, `apply_boosts`, `build_scores`), the
task-queue executor (`write_escalation`, `execute_task`), the snapshot
fetcher's fallback chain (`fetch_market_snapshot`) and the cycle controller
(`run_cycle`), followed by theorems settling the specification's claims.

Modelling conventions, fixed once here:
* Python ints are `ℤ` (counters, exit codes, scores) or `ℕ` where the code
  only ever works with non-negative values (star/fork/issue counts, which
  would make `math.log10` raise on negatives, so the code assumes them
  non-negative).
* Timestamps are epoch seconds (`ℤ`); rendered timestamp strings are passed
  in as an explicit `String` parameter where the code formats `utcnow()`.
* I/O is made explicit: the result of `gh api` per repository is an input
  (`none` = fetch still failing after the three retries in `fetch_repo`),
  the shell execution of a task command is an oracle
  `env : String → ℤ × String` returning `(returncode, stderr)`, and files
  (queue, state, snapshot, escalation log) are values threaded in and out.
* JSON objects with defaulted lookups (`t.get("status", "todo")`,
  `t.get("kind", "normal")`, boost dimensions defaulting to 0, metrics
  fields defaulting to 0 / null) are modelled as total structures in which
  the defaults have already been resolved at load time; genuinely optional
  fields stay `Option`.
-/

/-- The five tracked entities, the keys of `REPOS` / `BASE_SCORES` in the
source (the self-entity is `fileview`). -/
inductive Entity : Type
  | fileview
  | yazi
  | lf
  | nnn
  | ranger
deriving DecidableEq

/-- One entity's metrics record, the shape fetched by `fetch_repo`
(`{stargazers_count, forks_count, open_issues_count, pushed_at}`).
`pushed_at` is an epoch-second timestamp, `none` for JSON null. -/
structure RepoMetrics : Type where
  stargazers_count : ℕ
  forks_count : ℕ
  open_issues_count : ℕ
  pushed_at : Option ℤ
deriving DecidableEq

/-- The static default table `FALLBACK_METRICS` from the source, verbatim. -/
def FALLBACK_METRICS : Entity → RepoMetrics
  | .fileview => ⟨0, 0, 0, none⟩
  | .yazi => ⟨32179, 701, 73, none⟩
  | .lf => ⟨9026, 359, 66, none⟩
  | .nnn => ⟨21191, 798, 2, none⟩
  | .ranger => ⟨16834, 923, 921, none⟩

/-- Static base sub-scores, the `BASE_SCORES` table from the source. -/
structure BaseScore : Type where
  product : ℤ
  ai_fit : ℤ
  reliability : ℤ
deriving DecidableEq

/-- The `BASE_SCORES` table from the source, verbatim. -/
def BASE_SCORES : Entity → BaseScore
  | .fileview => ⟨22, 18, 10⟩
  | .yazi => ⟨33, 6, 12⟩
  | .ranger => ⟨29, 4, 13⟩
  | .nnn => ⟨24, 3, 14⟩
  | .lf => ⟨24, 3, 13⟩

/-- Additive offsets per sub-score dimension, the shape of
`state["fileview_boost"]` and of a task's `boost` object (each of the five
keys defaulting to 0 is resolved at load). -/
structure Boost : Type where
  product : ℤ
  ai_fit : ℤ
  reliability : ℤ
  ecosystem : ℤ
  momentum : ℤ
deriving DecidableEq

/-- Pointwise sum, the unrolling of the loop
`for k in (...): state["fileview_boost"][k] += int(task_boost.get(k, 0))`. -/
def addBoost (a b : Boost) : Boost :=
  ⟨a.product + b.product, a.ai_fit + b.ai_fit, a.reliability + b.reliability,
   a.ecosystem + b.ecosystem, a.momentum + b.momentum⟩

/-- One queue entry, the task JSON shape.  `status` and `kind` carry the
load-time defaults `todo` / `normal` when the JSON omits them; `command`,
`result`, `completed_at` are genuinely optional. -/
structure QTask : Type where
  id : String
  title : String
  kind : String
  status : String
  command : Option String
  boost : Boost
  result : Option String
  completed_at : Option String
deriving DecidableEq

/-- Persistent cycle state, the `autopilot_state.json` shape.  The
`last_task_result` / `last_cycle_at` keys are absent until the first cycle
writes them, hence `Option`. -/
structure CycleState : Type where
  fileview_boost : Boost
  last_total : Option ℤ
  no_delta_cycles : ℤ
  completed_tasks : List String
  last_task_result : Option String
  last_cycle_at : Option String
deriving DecidableEq

/-- Per-entity score breakdown, one row built by `build_scores`. -/
structure ScoreRow : Type where
  product : ℤ
  ai_fit : ℤ
  reliability : ℤ
  ecosystem : ℤ
  momentum : ℤ
  total : ℤ
deriving DecidableEq

/-- The score mapping over the five entities (the dict keyed by
`BASE_SCORES` keys in the source). -/
structure Scores : Type where
  fileview : ScoreRow
  yazi : ScoreRow
  lf : ScoreRow
  nnn : ScoreRow
  ranger : ScoreRow
deriving DecidableEq

/-- Lookup of an entity's row in the score mapping. -/
def Scores.get (s : Scores) : Entity → ScoreRow
  | .fileview => s.fileview
  | .yazi => s.yazi
  | .lf => s.lf
  | .nnn => s.nnn
  | .ranger => s.ranger

/-- The `repos` object of a persisted snapshot: per entity, the record may
be absent (the prior-snapshot file may be missing or partial; a freshly
fetched snapshot always has all five present). -/
structure SnapRepos : Type where
  fileview : Option RepoMetrics
  yazi : Option RepoMetrics
  lf : Option RepoMetrics
  nnn : Option RepoMetrics
  ranger : Option RepoMetrics
deriving DecidableEq

/-- Lookup of an entity's record in a `repos` object. -/
def SnapRepos.get (r : SnapRepos) : Entity → Option RepoMetrics
  | .fileview => r.fileview
  | .yazi => r.yazi
  | .lf => r.lf
  | .nnn => r.nnn
  | .ranger => r.ranger

/-- A persisted market snapshot `{updated_at, repos}`; `updated_at` is the
fetch-time string the fetcher stamps in. -/
structure Snapshot : Type where
  updated_at : String
  repos : SnapRepos
deriving DecidableEq

/-- Stars of a possibly-absent record, the source's
`int(repo_data.get("stargazers_count", 0))` with `repo_data = {}` when the
key is missing. -/
def entStars : Option RepoMetrics → ℕ
  | some m => m.stargazers_count
  | none => 0

/-- Push timestamp of a possibly-absent record, the source's
`repo_data.get("pushed_at")`. -/
def entPushed : Option RepoMetrics → Option ℤ
  | some m => m.pushed_at
  | none => none

/-- Maximum star count over the records present in a `repos` object, the
source's `max(stars.values(), default=0)` where `stars` ranges over the
keys present in `snapshot["repos"]` (all values are non-negative, so
folding `max` from 0 agrees with Python's `max` with `default=0`). -/
def snapMaxStars (r : SnapRepos) : ℕ :=
  (([r.fileview, r.yazi, r.lf, r.nnn, r.ranger]).filterMap
    (Option.map RepoMetrics.stargazers_count)).foldl max 0

/-- Half-up-versus-half-even tie resolution for the ecosystem ratio: given
`A = stars + 1`, `B = max_stars + 1` and the floor `fl` of
`x = 15 * log(A) / log(B)`, return Python's `round(x)` (round half to
even).  The comparisons are exact: for `A ≥ 1`, `B ≥ 2`,
`x > fl + 1/2  ↔  30 * log A > (2 * fl + 1) * log B  ↔  A^30 > B^(2*fl+1)`,
and likewise with equality, so the fractional part is compared to `1/2`
purely on natural-number powers.  `ecosystem_score_eq_log` below proves
this agrees with the real-logarithm formula of the source. -/
def ecoRound (A B fl : ℕ) : ℕ :=
  if B ^ (2 * fl + 1) < A ^ 30 ∨ (A ^ 30 = B ^ (2 * fl + 1) ∧ fl % 2 = 1)
  then fl + 1 else fl

/-- Floor of `15 * log(A) / log(B)` capped at 15, computed exactly: for
`A ≥ 1`, `B ≥ 2` and `1 ≤ k ≤ 15`, `k ≤ 15 * log A / log B ↔ B^k ≤ A^15`,
and the count of such `k` is `min ⌊x⌋ 15`.  (Values above 15 are
indistinguishable after the `min 15` clamp of `ecosystem_score`.) -/
def ecoFloor (A B : ℕ) : ℕ :=
  (List.range 15).countP (fun k => decide (B ^ (k + 1) ≤ A ^ 15))

/-- Ecosystem sub-score, the source's
`ecosystem_score(stars, max_stars)`:
`1` when `max_stars <= 0`, otherwise
`max(1, min(15, round(log10(stars+1)/log10(max_stars+1) * 15)))` with
Python's banker's rounding.  The logarithm-ratio rounding is evaluated
exactly through `ecoFloor` / `ecoRound` (see their doc comments and the
bridge theorem `ecosystem_score_eq_log`). -/
def ecosystem_score (stars max_stars : ℕ) : ℤ :=
  if max_stars = 0 then 1
  else max 1 (min 15
    ((ecoRound (stars + 1) (max_stars + 1)
      (ecoFloor (stars + 1) (max_stars + 1)) : ℤ)))

/-- Momentum sub-score, the source's `momentum_score(pushed_at)` with the
ambient `datetime.now(timezone.utc)` made an explicit argument `now`
(epoch seconds).  `days` is Python's `timedelta.days`, i.e. floor division
of the signed second difference by 86400, clamped below by 0. -/
def momentum_score (pushed_at : Option ℤ) (now : ℤ) : ℤ :=
  match pushed_at with
  | none => 1
  | some pushed =>
    let days := max 0 ((now - pushed).fdiv 86400)
    if days ≤ 1 then 10
    else if days ≤ 3 then 9
    else if days ≤ 7 then 8
    else if days ≤ 14 then 6
    else if days ≤ 30 then 4
    else 2

/-- The source's `apply_boosts(scores, state)`: add each boost dimension to
the corresponding field of the `fileview` row, leaving `total` and the
other entities untouched (the caller recomputes the `fileview` total). -/
def apply_boosts (s : Scores) (st : CycleState) : Scores :=
  { s with fileview :=
    { s.fileview with
      product := s.fileview.product + st.fileview_boost.product
      ai_fit := s.fileview.ai_fit + st.fileview_boost.ai_fit
      reliability := s.fileview.reliability + st.fileview_boost.reliability
      ecosystem := s.fileview.ecosystem + st.fileview_boost.ecosystem
      momentum := s.fileview.momentum + st.fileview_boost.momentum } }

/-- One unboosted row of `build_scores` for entity `e`: static base values,
derived ecosystem and momentum, and their sum as `total`. -/
def scoreRowFor (snap : Snapshot) (ms : ℕ) (now : ℤ) (e : Entity) : ScoreRow :=
  let base := BASE_SCORES e
  let rd := snap.repos.get e
  let eco := ecosystem_score (entStars rd) ms
  let mom := momentum_score (entPushed rd) now
  ⟨base.product, base.ai_fit, base.reliability, eco, mom,
   base.product + base.ai_fit + base.reliability + eco + mom⟩

/-- The source's `build_scores(snapshot, state)` with the ambient clock an
explicit `now` (it is threaded only into `momentum_score`): build the five
unboosted rows, apply the boosts to the `fileview` row, then overwrite the
`fileview` total with the sum of its five (now boosted) sub-scores. -/
def build_scores (snap : Snapshot) (st : CycleState) (now : ℤ) : Scores :=
  let ms := snapMaxStars snap.repos
  let s0 : Scores :=
    ⟨scoreRowFor snap ms now .fileview, scoreRowFor snap ms now .yazi,
     scoreRowFor snap ms now .lf, scoreRowFor snap ms now .nnn,
     scoreRowFor snap ms now .ranger⟩
  let s1 := apply_boosts s0 st
  { s1 with fileview :=
    { s1.fileview with
      total := s1.fileview.product + s1.fileview.ai_fit +
        s1.fileview.reliability + s1.fileview.ecosystem +
        s1.fileview.momentum } }

/-- Fallback resolution for one entity inside `fetch_market_snapshot`:
live fetch result first, else the prior snapshot's record, else the static
default — the nested `if data is None` chain of the source. -/
def resolveEntity (live prev : Option RepoMetrics) (fb : RepoMetrics) :
    Option RepoMetrics :=
  match live with
  | some d => some d
  | none =>
    match prev with
    | some d => some d
    | none => some fb

/-- The source's `fetch_market_snapshot()` with I/O made explicit:
`fetchR` holds the per-entity result of `fetch_repo` (`none` = failed
after its three retries), `prior` is the `repos` object of the previously
persisted snapshot file (all `none` when the file is absent), and `nowStr`
the formatted `utcnow()` stamped into `updated_at`. -/
def fetch_market_snapshot (fetchR prior : SnapRepos) (nowStr : String) :
    Snapshot :=
  { updated_at := nowStr
    repos :=
      ⟨resolveEntity fetchR.fileview prior.fileview (FALLBACK_METRICS .fileview),
       resolveEntity fetchR.yazi prior.yazi (FALLBACK_METRICS .yazi),
       resolveEntity fetchR.lf prior.lf (FALLBACK_METRICS .lf),
       resolveEntity fetchR.nnn prior.nnn (FALLBACK_METRICS .nnn),
       resolveEntity fetchR.ranger prior.ranger (FALLBACK_METRICS .ranger)⟩ }

/-- The escalation line formatted by `write_escalation`:
`f"- {now} | {task['id']} | {task['title']} | kind=major | action required\n"`. -/
def escalationLine (nowStr : String) (t : QTask) : String :=
  ("- ") ++ nowStr ++ (" | ") ++ t.id ++ (" | ") ++ t.title ++
    (" | kind=major | action required\n")

/-- The source's `write_escalation(task)`: append the escalation line to
the log file's current content, creating it with the `# Escalations`
header when the file does not exist (`log = none`). -/
def write_escalation (log : Option String) (nowStr : String) (t : QTask) :
    String :=
  match log with
  | some s => s ++ escalationLine nowStr t
  | none => ("# Escalations\n\n") ++ escalationLine nowStr t

/-- Result bundle of one `execute_task` invocation: the (possibly updated)
queue, state and escalation-log content, and the returned outcome string. -/
structure ExecResult : Type where
  queue : List QTask
  state : CycleState
  esclog : Option String
  outcome : String
deriving DecidableEq

/-- Python truthiness of the selected task's `command`
(`cmd = todo.get("command"); if not cmd:`): absent or empty string. -/
def cmdBlank : Option String → Bool
  | none => true
  | some s => s.isEmpty

/-- The source's `execute_task(queue, state)`: walk the queue to the first
task whose status is `todo` (`next(t for t in tasks if ...)`), then branch:
`major` kind appends an escalation and leaves the task untouched; a blank
command marks it `blocked`; a nonzero exit of the shell oracle `env` marks
it `failed` with the last 800 characters of stderr; a zero exit marks it
`done`, stamps `completed_at`, merges the task's boost into the state and
appends its id to `completed_tasks`.  Tasks before the selected one are
rebuilt unchanged; with no `todo` task the outcome is `no_task`. -/
def execute_task : List QTask → CycleState → Option String →
    (String → ℤ × String) → String → ExecResult
  | [], st, log, _, _ => ⟨[], st, log, ("no_task")⟩
  | t :: rest, st, log, env, nowStr =>
    if t.status = ("todo") then
      if t.kind = ("major") then
        ⟨t :: rest, st, some (write_escalation log nowStr t), ("major")⟩
      else if cmdBlank t.command then
        ⟨{ t with status := ("blocked"), result := some ("missing command") }
            :: rest, st, log, ("blocked")⟩
      else
        let cp := env (t.command.getD (""))
        if cp.1 ≠ 0 then
          ⟨{ t with status := ("failed")
                    result := some (cp.2.takeRight 800) } :: rest,
           st, log, ("failed")⟩
        else
          ⟨{ t with status := ("done"), completed_at := some nowStr } :: rest,
           { st with fileview_boost := addBoost st.fileview_boost t.boost,
                     completed_tasks := st.completed_tasks ++ [t.id] },
           log, ("done")⟩
    else
      let r := execute_task rest st log env nowStr
      ⟨t :: r.queue, r.state, r.esclog, r.outcome⟩

/-- Result bundle of one `run_cycle`: final state, queue and escalation
log, the written snapshot, the score mapping, the reported delta, the task
outcome and the process exit code (0 continue, 10 escalate, 11 pivot). -/
structure CycleResult : Type where
  state : CycleState
  queue : List QTask
  esclog : Option String
  snapshot : Snapshot
  scores : Scores
  delta : ℤ
  taskResult : String
  exitCode : ℤ
deriving DecidableEq

/-- The source's `run_cycle` with I/O explicit (branch guard assumed
passed, prints and git calls dropped as out of the specified core):
`before = int(state["last_total"] or 0)` read from the incoming state;
fetch the snapshot; run `execute_task` (which may update boosts); score
with the updated state; `delta = after - before if before else 0`; bump or
reset `no_delta_cycles` only on outcome `done`; stamp `last_total`,
`last_task_result`, `last_cycle_at`; exit 10 on `major`, 11 when the
updated counter reaches 2, else 0. -/
def run_cycle (st : CycleState) (tasks : List QTask) (esclog : Option String)
    (env : String → ℤ × String) (fetchR prior : SnapRepos)
    (now : ℤ) (nowStr : String) : CycleResult :=
  let before : ℤ := st.last_total.getD 0
  let snap := fetch_market_snapshot fetchR prior nowStr
  let er := execute_task tasks st esclog env nowStr
  let scores := build_scores snap er.state now
  let after := scores.fileview.total
  let delta := if before = 0 then 0 else after - before
  let nd := if er.outcome = ("done") then
      (if delta = 0 then er.state.no_delta_cycles + 1 else 0)
    else er.state.no_delta_cycles
  let st' : CycleState := { er.state with
    no_delta_cycles := nd
    last_total := some after
    last_task_result := some er.outcome
    last_cycle_at := some nowStr }
  let exitCode : ℤ := if er.outcome = ("major") then 10
    else if 2 ≤ st'.no_delta_cycles then 11 else 0
  ⟨st', er.queue, er.esclog, snap, scores, delta, er.outcome, exitCode⟩

/-- The all-zero boost object, the zero element of `addBoost` and the
boost part of `load_state`'s default. -/
def zeroBoost : Boost := ⟨0, 0, 0, 0, 0⟩

/-- The default cycle state returned by `load_state()` when the state file
does not exist: zero boosts, no previous total, zero stagnation counter,
no completed tasks (and the two stamp keys not yet written). -/
def load_state_default : CycleState := ⟨zeroBoost, none, 0, [], none, none⟩

/-- A metrics record with zero counts and no push timestamp (concrete
sample data used to instantiate theorems). -/
def zeroMetrics : RepoMetrics := ⟨0, 0, 0, none⟩

/-- Fetch results where every live fetch succeeded with `zeroMetrics`
(concrete sample data used to instantiate theorems). -/
def zeroFetch : SnapRepos :=
  ⟨some zeroMetrics, some zeroMetrics, some zeroMetrics, some zeroMetrics,
   some zeroMetrics⟩

/-- A `repos` object with every record absent: the prior snapshot of a
first cycle, or fetch results where every live fetch failed. -/
def emptyRepos : SnapRepos := ⟨none, none, none, none, none⟩

/-- A queue task of kind `normal` with a runnable command and zero boosts
(concrete sample data used to instantiate theorems). -/
def sampleTask : QTask :=
  ⟨("t1"), ("improve"), ("normal"), ("todo"), some ("true"), zeroBoost,
   none, none⟩

/-- A shell oracle whose every command exits 0 with empty stderr (concrete
sample data used to instantiate theorems). -/
def okShell : String → ℤ × String := fun _ => (0, (""))

/-- Python's built-in `round` over the idealized reals: round to the
nearest integer, resolving exact halves to the even neighbour. -/
noncomputable def roundHalfEven (x : ℝ) : ℤ :=
  if Int.fract x = 1 / 2 then (if ⌊x⌋ % 2 = 0 then ⌊x⌋ else ⌊x⌋ + 1)
  else round x

/-- The ecosystem sub-score transcribed literally from the source over the
idealized reals:
`ratio = math.log10(stars + 1) / math.log10(max_stars + 1)` and
`max(1, min(15, round(ratio * 15)))`, with the `max_stars <= 0` early
return.  The bridge theorem `ecosystem_score_eq_log` proves the computable
`ecosystem_score` used by the rest of this file agrees with it. -/
noncomputable def ecoScoreLog (stars max_stars : ℕ) : ℤ :=
  if max_stars = 0 then 1
  else max 1 (min 15 (roundHalfEven
    (Real.logb 10 (stars + 1) / Real.logb 10 (max_stars + 1) * 15)))

theorem ecoScore_sanity : ecosystem_score 0 0 = 1 ∧ ecosystem_score 0 32179 = 1 := by
  constructor <;> decide

theorem ecoFloor_mono {A1 A2 : ℕ} (B : ℕ) (h : A1 ≤ A2) :
    ecoFloor A1 B ≤ ecoFloor A2 B := by
  unfold ecoFloor
  refine List.countP_mono_left ?_
  intro k _ hk
  simp only [decide_eq_true_eq] at hk ⊢
  exact le_trans hk (Nat.pow_le_pow_left h 15)

theorem ecoRound_bounds (A B fl : ℕ) :
    fl ≤ ecoRound A B fl ∧ ecoRound A B fl ≤ fl + 1 := by
  unfold ecoRound
  split <;> omega

theorem ecoRound_mono_of_eq {A1 A2 B fl : ℕ} (h : A1 ≤ A2) :
    ecoRound A1 B fl ≤ ecoRound A2 B fl := by
  have ha : A1 ^ 30 ≤ A2 ^ 30 := Nat.pow_le_pow_left h 30
  unfold ecoRound
  split <;> split <;> omega

/-- C6: for all non-negative star counts and `max_stars`,
`ecosystem_score` lies in `[1, 15]` and `momentum_score` lies in
`[1, 10]`; in particular `ecosystem_score 0 0 = 1` (the `max_stars = 0`
guard returns 1 before any logarithm or division is evaluated, so no
division by zero and no exception — both functions are total in this
embedding). -/
theorem C6_score_ranges :
    (∀ stars max_stars : ℕ,
      1 ≤ ecosystem_score stars max_stars ∧ ecosystem_score stars max_stars ≤ 15)
    ∧ (∀ (pushed_at : Option ℤ) (now : ℤ),
      1 ≤ momentum_score pushed_at now ∧ momentum_score pushed_at now ≤ 10)
    ∧ ecosystem_score 0 0 = 1 := by
  refine ⟨?_, ?_, by decide⟩
  · intro s M
    unfold ecosystem_score
    split
    · constructor <;> norm_num
    · constructor
      · exact le_max_left 1 _
      · exact max_le (by norm_num) (min_le_left 15 _)
  · intro p now
    cases p with
    | none => constructor <;> simp [momentum_score]
    | some t =>
      simp only [momentum_score]
      split_ifs <;> constructor <;> norm_num

/-- C7: for all star counts `s1 ≤ s2` and any fixed `max_stars ≥ s2`,
`ecosystem_score s1 max_stars ≤ ecosystem_score s2 max_stars`: the
ecosystem sub-score is monotone in the star count. -/
theorem C7_eco_monotone (s1 s2 M : ℕ) (h12 : s1 ≤ s2) (h2M : s2 ≤ M) :
    ecosystem_score s1 M ≤ ecosystem_score s2 M := by
  unfold ecosystem_score
  by_cases hM : M = 0
  · simp [hM]
  · simp only [if_neg hM]
    have hA : s1 + 1 ≤ s2 + 1 := by omega
    have hf : ecoFloor (s1 + 1) (M + 1) ≤ ecoFloor (s2 + 1) (M + 1) :=
      ecoFloor_mono (M + 1) hA
    have key : ecoRound (s1 + 1) (M + 1) (ecoFloor (s1 + 1) (M + 1)) ≤
        ecoRound (s2 + 1) (M + 1) (ecoFloor (s2 + 1) (M + 1)) := by
      rcases Nat.lt_or_ge (ecoFloor (s1 + 1) (M + 1)) (ecoFloor (s2 + 1) (M + 1))
        with hlt | hge
      · have b1 := ecoRound_bounds (s1 + 1) (M + 1) (ecoFloor (s1 + 1) (M + 1))
        have b2 := ecoRound_bounds (s2 + 1) (M + 1) (ecoFloor (s2 + 1) (M + 1))
        omega
      · have heq : ecoFloor (s1 + 1) (M + 1) = ecoFloor (s2 + 1) (M + 1) := by
          omega
        rw [heq]
        exact ecoRound_mono_of_eq hA
    exact max_le_max le_rfl (min_le_min le_rfl (by exact_mod_cast key))

theorem C7_eco_monotone_witness :
    0 ≤ 5 ∧ 5 ≤ 32179 ∧ ecosystem_score 0 32179 ≤ ecosystem_score 5 32179 :=
  ⟨by decide, by decide, C7_eco_monotone 0 5 32179 (by decide) (by decide)⟩

theorem exec_nd_const (tasks : List QTask) (st : CycleState)
    (log : Option String) (env : String → ℤ × String) (nowStr : String) :
    (execute_task tasks st log env nowStr).state.no_delta_cycles =
      st.no_delta_cycles := by
  induction tasks with
  | nil => rfl
  | cons t rest ih =>
    by_cases hs : t.status = ("todo")
    · by_cases hk : t.kind = ("major")
      · simp [execute_task, hs, hk]
      · by_cases hc : cmdBlank t.command = true
        · simp [execute_task, hs, hk, hc]
        · by_cases hrc : (env (t.command.getD (""))).1 = 0
          · simp [execute_task, hs, hk, hc, hrc]
          · simp [execute_task, hs, hk, hc, hrc]
    · simpa [execute_task, hs] using ih

/-- C5: one invocation of `execute_task` changes at most one task away
from `todo`, and leaves every other task in the queue — in particular
every other `todo` task — unchanged regardless of its position: either the
whole queue is returned unchanged, or exactly one entry (the first one
whose status is `todo`) is replaced in place, with every entry before and
after it preserved verbatim. -/
theorem C5_exec_frame (tasks : List QTask) (st : CycleState)
    (log : Option String) (env : String → ℤ × String) (nowStr : String) :
    (execute_task tasks st log env nowStr).queue = tasks ∨
    ∃ pre t t' post, tasks = pre ++ t :: post ∧
      (execute_task tasks st log env nowStr).queue = pre ++ t' :: post ∧
      t.status = ("todo") ∧ ∀ u ∈ pre, u.status ≠ ("todo") := by
  induction tasks with
  | nil => left; rfl
  | cons t rest ih =>
    by_cases hs : t.status = ("todo")
    · by_cases hk : t.kind = ("major")
      · left; simp [execute_task, hs, hk]
      · by_cases hc : cmdBlank t.command = true
        · right
          refine ⟨[], t,
            { t with status := ("blocked"), result := some ("missing command") },
            rest, rfl, ?_, hs, by simp⟩
          simp [execute_task, hs, hk, hc]
        · by_cases hrc : (env (t.command.getD (""))).1 = 0
          · right
            refine ⟨[], t,
              { t with status := ("done"), completed_at := some nowStr },
              rest, rfl, ?_, hs, by simp⟩
            simp [execute_task, hs, hk, hc, hrc]
          · right
            refine ⟨[], t,
              { t with status := ("failed")
                       result := some ((env (t.command.getD (""))).2.takeRight 800) },
              rest, rfl, ?_, hs, by simp⟩
            simp [execute_task, hs, hk, hc, hrc]
    · rcases ih with hq | ⟨pre, t0, t0', post, he, hq, ht0, hpre⟩
      · left; simp [execute_task, hs, hq]
      · right
        refine ⟨t :: pre, t0, t0', post, by simp [he], ?_, ht0, ?_⟩
        · simp [execute_task, hs, hq]
        · intro u hu
          rcases List.mem_cons.mp hu with h | h
          · rw [h]; exact hs
          · exact hpre u h

/-- C9: when the first `todo` task has kind `major`, the executor does not
run its command (the result is independent of the execution oracle), does
not change any task (the selected task stays `todo`), leaves the state
untouched, returns outcome `major`, and appends exactly one escalation
line — timestamp, task id, title, the fixed `kind=major` severity marker —
to the escalation log, preserving all previously logged content (creating
the log with its header when it does not exist yet). -/
theorem C9_major_branch (pre : List QTask) (t : QTask) (post : List QTask)
    (st : CycleState) (log : Option String) (env : String → ℤ × String)
    (nowStr : String)
    (hpre : ∀ u ∈ pre, u.status ≠ ("todo"))
    (ht : t.status = ("todo")) (hk : t.kind = ("major")) :
    (execute_task (pre ++ t :: post) st log env nowStr).queue =
        pre ++ t :: post ∧
    (execute_task (pre ++ t :: post) st log env nowStr).state = st ∧
    (execute_task (pre ++ t :: post) st log env nowStr).outcome = ("major") ∧
    (∀ s, log = some s →
      (execute_task (pre ++ t :: post) st log env nowStr).esclog =
        some (s ++ escalationLine nowStr t)) ∧
    (log = none →
      (execute_task (pre ++ t :: post) st log env nowStr).esclog =
        some (("# Escalations\n\n") ++ escalationLine nowStr t)) ∧
    ∀ env2 : String → ℤ × String,
      execute_task (pre ++ t :: post) st log env2 nowStr =
        execute_task (pre ++ t :: post) st log env nowStr := by
  induction pre with
  | nil =>
    refine ⟨?_, ?_, ?_, ?_, ?_, ?_⟩ <;>
      simp [execute_task, ht, hk, write_escalation]
    · intro s hlog; rw [hlog]
    · intro hlog; rw [hlog]
  | cons u rest ih =>
    have hu : u.status ≠ ("todo") := hpre u (List.mem_cons_self u rest)
    have hrest : ∀ v ∈ rest, v.status ≠ ("todo") := fun v hv =>
      hpre v (List.mem_cons_of_mem u hv)
    obtain ⟨ih1, ih2, ih3, ih4, ih5, ih6⟩ := ih hrest
    refine ⟨?_, ?_, ?_, ?_, ?_, ?_⟩
    · simp [execute_task, hu, ih1]
    · simp [execute_task, hu, ih2]
    · simp [execute_task, hu, ih3]
    · intro s hlog
      simp only [List.cons_append, execute_task, if_neg hu]
      exact ih4 s hlog
    · intro hlog
      simp only [List.cons_append, execute_task, if_neg hu]
      exact ih5 hlog
    · intro env2
      simp only [List.cons_append, execute_task, if_neg hu]
      exact congrArg (fun r : ExecResult =>
        ExecResult.mk (u :: r.queue) r.state r.esclog r.outcome) (ih6 env2)

theorem C9_major_branch_witness :
    (∀ u ∈ ([] : List QTask), u.status ≠ ("todo")) ∧
    (execute_task
      [⟨("m1"), ("decide architecture"), ("major"), ("todo"), none, zeroBoost,
        none, none⟩]
      load_state_default (some ("# Escalations\n\n")) okShell
      ("2026-01-01T00:00:00Z")).outcome = ("major") :=
  ⟨by simp,
   (C9_major_branch []
     ⟨("m1"), ("decide architecture"), ("major"), ("todo"), none, zeroBoost,
       none, none⟩
     [] load_state_default (some ("# Escalations\n\n")) okShell
     ("2026-01-01T00:00:00Z") (by simp) rfl rfl).2.2.1⟩

/-- C8: per-entity fallback resolution of the snapshot fetcher follows the
strict priority live fetch, then prior snapshot record, then static
default table; in particular when the live fetch has failed (after its
retries) and the prior snapshot has no record for the entity, the record
placed in the new snapshot is exactly that entity's `FALLBACK_METRICS`
entry. -/
theorem C8_fallback_chain (fetchR prior : SnapRepos) (nowStr : String)
    (e : Entity) :
    (∀ d, fetchR.get e = some d →
      (fetch_market_snapshot fetchR prior nowStr).repos.get e = some d) ∧
    (∀ d, fetchR.get e = none → prior.get e = some d →
      (fetch_market_snapshot fetchR prior nowStr).repos.get e = some d) ∧
    (fetchR.get e = none → prior.get e = none →
      (fetch_market_snapshot fetchR prior nowStr).repos.get e =
        some (FALLBACK_METRICS e)) := by
  cases e <;>
    exact ⟨fun d hd => by
        simp_all [fetch_market_snapshot, SnapRepos.get, resolveEntity],
      fun d hf hp => by
        simp_all [fetch_market_snapshot, SnapRepos.get, resolveEntity],
      fun hf hp => by
        simp_all [fetch_market_snapshot, SnapRepos.get, resolveEntity]⟩

theorem C8_fallback_chain_witness :
    emptyRepos.get Entity.fileview = none ∧
    (fetch_market_snapshot emptyRepos emptyRepos ("ts")).repos.get
        Entity.fileview = some (FALLBACK_METRICS Entity.fileview) :=
  ⟨rfl, (C8_fallback_chain emptyRepos emptyRepos ("ts")
    Entity.fileview).2.2 rfl rfl⟩

theorem run_cycle_components (st : CycleState) (tasks : List QTask)
    (esclog : Option String) (env : String → ℤ × String)
    (fetchR prior : SnapRepos) (now : ℤ) (nowStr : String) :
    (run_cycle st tasks esclog env fetchR prior now nowStr).taskResult =
      (execute_task tasks st esclog env nowStr).outcome ∧
    (run_cycle st tasks esclog env fetchR prior now nowStr).scores =
      build_scores (fetch_market_snapshot fetchR prior nowStr)
        (execute_task tasks st esclog env nowStr).state now ∧
    (run_cycle st tasks esclog env fetchR prior now nowStr).delta =
      (if st.last_total.getD 0 = 0 then 0
       else (run_cycle st tasks esclog env fetchR prior now nowStr).scores.fileview.total -
         st.last_total.getD 0) :=
  ⟨rfl, rfl, rfl⟩

theorem run_cycle_nd_rule (st : CycleState) (tasks : List QTask)
    (esclog : Option String) (env : String → ℤ × String)
    (fetchR prior : SnapRepos) (now : ℤ) (nowStr : String) :
    (run_cycle st tasks esclog env fetchR prior now nowStr).state.no_delta_cycles =
      (if (run_cycle st tasks esclog env fetchR prior now nowStr).taskResult = ("done") then
        (if (run_cycle st tasks esclog env fetchR prior now nowStr).delta = 0 then
          st.no_delta_cycles + 1
         else 0)
       else st.no_delta_cycles) := by
  have h := exec_nd_const tasks st esclog env nowStr
  simp only [run_cycle]
  rw [h]

theorem run_cycle_exit_rule (st : CycleState) (tasks : List QTask)
    (esclog : Option String) (env : String → ℤ × String)
    (fetchR prior : SnapRepos) (now : ℤ) (nowStr : String) :
    (run_cycle st tasks esclog env fetchR prior now nowStr).exitCode =
      (if (run_cycle st tasks esclog env fetchR prior now nowStr).taskResult = ("major") then 10
       else if 2 ≤ (run_cycle st tasks esclog env fetchR prior now nowStr).state.no_delta_cycles then 11
       else 0) := rfl

theorem C1_stagnation_cex :
    (run_cycle ⟨zeroBoost, none, 1, [], none, none⟩ [] none okShell zeroFetch
      emptyRepos 0 ("ts")).taskResult ≠ ("done") ∧
    (run_cycle ⟨zeroBoost, none, 1, [], none, none⟩ [] none okShell zeroFetch
      emptyRepos 0 ("ts")).state.no_delta_cycles = 1 := by
  constructor <;> decide

/-- C1 (amended): if two consecutive cycles both report `task_outcome ==
done` and `delta == 0` (starting from a non-negative counter), the second
of those cycles already decides pivot (exit code 11), the counter having
been incremented by each of them; a cycle with `task_outcome == done` and
`delta != 0` resets the counter to 0; a cycle whose outcome is not `done`
leaves the counter unchanged (it does not reset it). -/
theorem C1_stagnation_amended (st : CycleState)
    (q1 : List QTask) (l1 : Option String) (e1 : String → ℤ × String)
    (f1 p1 : SnapRepos) (n1 : ℤ) (s1 : String)
    (q2 : List QTask) (l2 : Option String) (e2 : String → ℤ × String)
    (f2 p2 : SnapRepos) (n2 : ℤ) (s2 : String)
    (h0 : 0 ≤ st.no_delta_cycles)
    (h1 : (run_cycle st q1 l1 e1 f1 p1 n1 s1).taskResult = ("done"))
    (h2 : (run_cycle st q1 l1 e1 f1 p1 n1 s1).delta = 0)
    (h3 : (run_cycle (run_cycle st q1 l1 e1 f1 p1 n1 s1).state q2 l2 e2 f2
      p2 n2 s2).taskResult = ("done"))
    (h4 : (run_cycle (run_cycle st q1 l1 e1 f1 p1 n1 s1).state q2 l2 e2 f2
      p2 n2 s2).delta = 0) :
    (run_cycle (run_cycle st q1 l1 e1 f1 p1 n1 s1).state q2 l2 e2 f2 p2 n2
      s2).exitCode = 11 ∧
    (run_cycle st q1 l1 e1 f1 p1 n1 s1).state.no_delta_cycles =
      st.no_delta_cycles + 1 ∧
    (∀ (st3 : CycleState) (q3 : List QTask) (l3 : Option String)
      (e3 : String → ℤ × String) (f3 p3 : SnapRepos) (n3 : ℤ) (s3 : String),
      (run_cycle st3 q3 l3 e3 f3 p3 n3 s3).taskResult = ("done") →
      (run_cycle st3 q3 l3 e3 f3 p3 n3 s3).delta ≠ 0 →
      (run_cycle st3 q3 l3 e3 f3 p3 n3 s3).state.no_delta_cycles = 0) ∧
    (∀ (st4 : CycleState) (q4 : List QTask) (l4 : Option String)
      (e4 : String → ℤ × String) (f4 p4 : SnapRepos) (n4 : ℤ) (s4 : String),
      (run_cycle st4 q4 l4 e4 f4 p4 n4 s4).taskResult ≠ ("done") →
      (run_cycle st4 q4 l4 e4 f4 p4 n4 s4).state.no_delta_cycles =
        st4.no_delta_cycles) := by
  have k1 : (run_cycle st q1 l1 e1 f1 p1 n1 s1).state.no_delta_cycles =
      st.no_delta_cycles + 1 := by
    rw [run_cycle_nd_rule]
    simp [h1, h2]
  have k2 : (run_cycle (run_cycle st q1 l1 e1 f1 p1 n1 s1).state q2 l2 e2
      f2 p2 n2 s2).state.no_delta_cycles =
      (run_cycle st q1 l1 e1 f1 p1 n1 s1).state.no_delta_cycles + 1 := by
    rw [run_cycle_nd_rule]
    simp [h3, h4]
  refine ⟨?_, k1, ?_, ?_⟩
  · rw [run_cycle_exit_rule, h3]
    rw [if_neg (by decide : ¬(("done") : String) = ("major"))]
    rw [k2, k1]
    rw [if_pos (by omega)]
  · intro st3 q3 l3 e3 f3 p3 n3 s3 h5 h6
    rw [run_cycle_nd_rule]
    simp [h5, h6]
  · intro st4 q4 l4 e4 f4 p4 n4 s4 h5
    rw [run_cycle_nd_rule]
    simp [h5]

theorem C1_stagnation_amended_witness :
    (0 : ℤ) ≤ load_state_default.no_delta_cycles ∧
    (run_cycle (run_cycle load_state_default [sampleTask] none okShell
      zeroFetch emptyRepos 0 ("c1")).state [sampleTask] none okShell
      zeroFetch emptyRepos 0 ("c2")).exitCode = 11 :=
  ⟨by decide,
   (C1_stagnation_amended load_state_default [sampleTask] none okShell
     zeroFetch emptyRepos 0 ("c1") [sampleTask] none okShell zeroFetch
     emptyRepos 0 ("c2") (by decide) (by decide) (by decide) (by decide)
     (by decide)).1⟩

theorem C2_delta_cex :
    (⟨zeroBoost, some 0, 0, [], none, none⟩ : CycleState).last_total =
      some 0 ∧
    (run_cycle ⟨zeroBoost, some 0, 0, [], none, none⟩ [] none okShell
      zeroFetch emptyRepos 0 ("ts")).scores.fileview.total = 52 ∧
    (run_cycle ⟨zeroBoost, some 0, 0, [], none, none⟩ [] none okShell
      zeroFetch emptyRepos 0 ("ts")).delta = 0 ∧
    ¬((run_cycle ⟨zeroBoost, some 0, 0, [], none, none⟩ [] none okShell
      zeroFetch emptyRepos 0 ("ts")).delta =
      (run_cycle ⟨zeroBoost, some 0, 0, [], none, none⟩ [] none okShell
        zeroFetch emptyRepos 0 ("ts")).scores.fileview.total - 0) := by
  refine ⟨rfl, by decide, by decide, by decide⟩

/-- C2 (amended): the reported delta equals `after_total - before_total`
only when the prior persisted `last_total` exists and is nonzero; it is
defined as 0 both when no prior total exists (the first cycle) and when
the persisted prior total is 0 (Python's falsy test `if before` conflates
the two). -/
theorem C2_delta_amended (st : CycleState) (q : List QTask)
    (l : Option String) (e : String → ℤ × String) (f p : SnapRepos)
    (n : ℤ) (s : String) :
    (st.last_total = none → (run_cycle st q l e f p n s).delta = 0) ∧
    (st.last_total = some 0 → (run_cycle st q l e f p n s).delta = 0) ∧
    (∀ v : ℤ, st.last_total = some v → v ≠ 0 →
      (run_cycle st q l e f p n s).delta =
        (run_cycle st q l e f p n s).scores.fileview.total - v) := by
  refine ⟨?_, ?_, ?_⟩
  · intro h
    simp [run_cycle, h]
  · intro h
    simp [run_cycle, h]
  · intro v hv hne
    simp [run_cycle, hv, hne]

theorem C2_delta_amended_witness :
    (⟨zeroBoost, some 7, 0, [], none, none⟩ : CycleState).last_total =
      some 7 ∧ (7 : ℤ) ≠ 0 ∧
    (run_cycle ⟨zeroBoost, some 7, 0, [], none, none⟩ [] none okShell
      zeroFetch emptyRepos 0 ("ts")).delta =
      (run_cycle ⟨zeroBoost, some 7, 0, [], none, none⟩ [] none okShell
        zeroFetch emptyRepos 0 ("ts")).scores.fileview.total - 7 :=
  ⟨rfl, by decide,
   (C2_delta_amended ⟨zeroBoost, some 7, 0, [], none, none⟩ [] none okShell
     zeroFetch emptyRepos 0 ("ts")).2.2 7 rfl (by decide)⟩

theorem exec_boost_mono (tasks : List QTask) (st : CycleState)
    (log : Option String) (env : String → ℤ × String) (nowStr : String)
    (h : ∀ t ∈ tasks, 0 ≤ t.boost.product ∧ 0 ≤ t.boost.ai_fit ∧
      0 ≤ t.boost.reliability ∧ 0 ≤ t.boost.ecosystem ∧
      0 ≤ t.boost.momentum) :
    st.fileview_boost.product ≤
      (execute_task tasks st log env nowStr).state.fileview_boost.product ∧
    st.fileview_boost.ai_fit ≤
      (execute_task tasks st log env nowStr).state.fileview_boost.ai_fit ∧
    st.fileview_boost.reliability ≤
      (execute_task tasks st log env nowStr).state.fileview_boost.reliability ∧
    st.fileview_boost.ecosystem ≤
      (execute_task tasks st log env nowStr).state.fileview_boost.ecosystem ∧
    st.fileview_boost.momentum ≤
      (execute_task tasks st log env nowStr).state.fileview_boost.momentum := by
  induction tasks with
  | nil => exact ⟨le_rfl, le_rfl, le_rfl, le_rfl, le_rfl⟩
  | cons t rest ih =>
    have ht := h t (List.mem_cons_self t rest)
    have hr := ih (fun v hv => h v (List.mem_cons_of_mem t hv))
    by_cases hs : t.status = ("todo")
    · by_cases hk : t.kind = ("major")
      · simp [execute_task, hs, hk]
      · by_cases hc : cmdBlank t.command = true
        · simp [execute_task, hs, hk, hc]
        · by_cases hrc : (env (t.command.getD (""))).1 = 0
          · simp [execute_task, hs, hk, hc, hrc, addBoost]
            omega
          · simp [execute_task, hs, hk, hc, hrc]
    · simpa [execute_task, hs] using hr

theorem C3_boost_cex :
    (run_cycle load_state_default
      [⟨("t1"), ("T"), ("normal"), ("todo"), some ("true"),
        ⟨-1, 0, 0, 0, 0⟩, none, none⟩]
      none okShell zeroFetch emptyRepos 0 ("ts")).state.fileview_boost.product <
      load_state_default.fileview_boost.product := by
  decide

/-- C3 (amended): across one cycle of `run_cycle`, every Boost dimension
is non-decreasing provided every task in the queue declares non-negative
boost increments; in general a completed task's declared increments are
added to the Boost as-is, so a negative declared increment decreases the
Boost (the code never clamps or rejects them). -/
theorem C3_boost_amended (st : CycleState) (q : List QTask)
    (l : Option String) (e : String → ℤ × String) (f p : SnapRepos)
    (n : ℤ) (s : String)
    (h : ∀ t ∈ q, 0 ≤ t.boost.product ∧ 0 ≤ t.boost.ai_fit ∧
      0 ≤ t.boost.reliability ∧ 0 ≤ t.boost.ecosystem ∧
      0 ≤ t.boost.momentum) :
    st.fileview_boost.product ≤
      (run_cycle st q l e f p n s).state.fileview_boost.product ∧
    st.fileview_boost.ai_fit ≤
      (run_cycle st q l e f p n s).state.fileview_boost.ai_fit ∧
    st.fileview_boost.reliability ≤
      (run_cycle st q l e f p n s).state.fileview_boost.reliability ∧
    st.fileview_boost.ecosystem ≤
      (run_cycle st q l e f p n s).state.fileview_boost.ecosystem ∧
    st.fileview_boost.momentum ≤
      (run_cycle st q l e f p n s).state.fileview_boost.momentum := by
  have hb : (run_cycle st q l e f p n s).state.fileview_boost =
      (execute_task q st l e s).state.fileview_boost := rfl
  rw [hb]
  exact exec_boost_mono q st l e s h

theorem C3_boost_amended_witness :
    (∀ t ∈ [sampleTask], 0 ≤ t.boost.product ∧ 0 ≤ t.boost.ai_fit ∧
      0 ≤ t.boost.reliability ∧ 0 ≤ t.boost.ecosystem ∧
      0 ≤ t.boost.momentum) ∧
    (load_state_default.fileview_boost.product ≤
      (run_cycle load_state_default [sampleTask] none okShell zeroFetch
        emptyRepos 0 ("ts")).state.fileview_boost.product ∧
    load_state_default.fileview_boost.ai_fit ≤
      (run_cycle load_state_default [sampleTask] none okShell zeroFetch
        emptyRepos 0 ("ts")).state.fileview_boost.ai_fit ∧
    load_state_default.fileview_boost.reliability ≤
      (run_cycle load_state_default [sampleTask] none okShell zeroFetch
        emptyRepos 0 ("ts")).state.fileview_boost.reliability ∧
    load_state_default.fileview_boost.ecosystem ≤
      (run_cycle load_state_default [sampleTask] none okShell zeroFetch
        emptyRepos 0 ("ts")).state.fileview_boost.ecosystem ∧
    load_state_default.fileview_boost.momentum ≤
      (run_cycle load_state_default [sampleTask] none okShell zeroFetch
        emptyRepos 0 ("ts")).state.fileview_boost.momentum) :=
  ⟨by decide,
   C3_boost_amended load_state_default [sampleTask] none okShell zeroFetch
     emptyRepos 0 ("ts") (by decide)⟩

theorem C4_determinism_cex :
    (build_scores ⟨("2026-01-01T00:00:00Z"),
        ⟨some ⟨0, 0, 0, some 0⟩, some zeroMetrics, some zeroMetrics,
         some zeroMetrics, some zeroMetrics⟩⟩
      load_state_default 0).fileview.momentum = 10 ∧
    (build_scores ⟨("2026-01-01T00:00:00Z"),
        ⟨some ⟨0, 0, 0, some 0⟩, some zeroMetrics, some zeroMetrics,
         some zeroMetrics, some zeroMetrics⟩⟩
      load_state_default 2678400).fileview.momentum = 2 ∧
    build_scores ⟨("2026-01-01T00:00:00Z"),
        ⟨some ⟨0, 0, 0, some 0⟩, some zeroMetrics, some zeroMetrics,
         some zeroMetrics, some zeroMetrics⟩⟩
      load_state_default 0 ≠
    build_scores ⟨("2026-01-01T00:00:00Z"),
        ⟨some ⟨0, 0, 0, some 0⟩, some zeroMetrics, some zeroMetrics,
         some zeroMetrics, some zeroMetrics⟩⟩
      load_state_default 2678400 := by
  refine ⟨by decide, by decide, by decide⟩

/-- C4 (amended): `build_scores` is a pure deterministic function of the
snapshot, the cycle state and the evaluation clock: every entity's
momentum sub-score equals `momentum_score` of that entity's recorded push
timestamp measured against the evaluation time `now` (the ambient
`datetime.now` at scoring, plus the fileview momentum boost for the
self-entity), and the result is independent of the fetch time recorded in
the snapshot's `updated_at` field — the momentum is measured against the
evaluation time, not the recorded fetch time. -/
theorem C4_determinism_amended (snap : Snapshot) (st : CycleState)
    (now : ℤ) (u1 u2 : String) (e : Entity) :
    ((build_scores snap st now).get e).momentum =
      momentum_score (entPushed (snap.repos.get e)) now +
        (if e = Entity.fileview then st.fileview_boost.momentum else 0) ∧
    build_scores ⟨u1, snap.repos⟩ st now =
      build_scores ⟨u2, snap.repos⟩ st now := by
  constructor
  · cases e <;>
      simp [build_scores, apply_boosts, Scores.get, scoreRowFor,
        SnapRepos.get, entPushed]
  · rfl

/-- C10: the cumulative Boost is applied to all five sub-score dimensions
of the self-entity `fileview`, including ecosystem and momentum: after
`build_scores`, each of fileview's five sub-score fields equals its
unboosted value plus the corresponding Boost offset; consequently a
positive ecosystem or momentum boost pushes the reported field beyond the
nominal ranges — with boosts `(0,0,0,20,15)` on an empty snapshot the
reported ecosystem field is 21 > 15 and the reported momentum field is
16 > 10. -/
theorem C10_boost_all_dims (snap : Snapshot) (st : CycleState) (now : ℤ) :
    ((build_scores snap st now).fileview.product =
      (BASE_SCORES Entity.fileview).product + st.fileview_boost.product ∧
    (build_scores snap st now).fileview.ai_fit =
      (BASE_SCORES Entity.fileview).ai_fit + st.fileview_boost.ai_fit ∧
    (build_scores snap st now).fileview.reliability =
      (BASE_SCORES Entity.fileview).reliability +
        st.fileview_boost.reliability ∧
    (build_scores snap st now).fileview.ecosystem =
      ecosystem_score (entStars (snap.repos.get Entity.fileview))
        (snapMaxStars snap.repos) + st.fileview_boost.ecosystem ∧
    (build_scores snap st now).fileview.momentum =
      momentum_score (entPushed (snap.repos.get Entity.fileview)) now +
        st.fileview_boost.momentum) ∧
    (15 < (build_scores ⟨(""), emptyRepos⟩
      ⟨⟨0, 0, 0, 20, 15⟩, none, 0, [], none, none⟩ 0).fileview.ecosystem ∧
    10 < (build_scores ⟨(""), emptyRepos⟩
      ⟨⟨0, 0, 0, 20, 15⟩, none, 0, [], none, none⟩ 0).fileview.momentum) := by
  constructor
  · refine ⟨rfl, rfl, rfl, rfl, rfl⟩
  · constructor <;> decide

theorem countP_range_lt (m n : ℕ) :
    (List.range n).countP (fun k => decide (k < m)) = min m n := by
  induction n with
  | zero => simp
  | succ n ih =>
    rw [List.range_succ, List.countP_append, ih]
    by_cases h : n < m <;> simp [h] <;> omega

theorem nat_pow_le_iff (a b m n : ℕ) (ha : 1 ≤ a) (hb : 1 ≤ b) :
    b ^ n ≤ a ^ m ↔ (n : ℝ) * Real.log b ≤ (m : ℝ) * Real.log a := by
  have ha0 : (0 : ℝ) < (a : ℝ) := by exact_mod_cast ha
  have hb0 : (0 : ℝ) < (b : ℝ) := by exact_mod_cast hb
  rw [← Real.log_pow, ← Real.log_pow,
    Real.log_le_log_iff (pow_pos hb0 n) (pow_pos ha0 m),
    ← Nat.cast_pow, ← Nat.cast_pow, Nat.cast_le]

theorem nat_pow_lt_iff (a b m n : ℕ) (ha : 1 ≤ a) (hb : 1 ≤ b) :
    b ^ n < a ^ m ↔ (n : ℝ) * Real.log b < (m : ℝ) * Real.log a := by
  have ha0 : (0 : ℝ) < (a : ℝ) := by exact_mod_cast ha
  have hb0 : (0 : ℝ) < (b : ℝ) := by exact_mod_cast hb
  rw [← Real.log_pow, ← Real.log_pow,
    Real.log_lt_log_iff (pow_pos hb0 n) (pow_pos ha0 m),
    ← Nat.cast_pow, ← Nat.cast_pow, Nat.cast_lt]

theorem nat_pow_eq_iff (a b m n : ℕ) (ha : 1 ≤ a) (hb : 1 ≤ b) :
    a ^ m = b ^ n ↔ (m : ℝ) * Real.log a = (n : ℝ) * Real.log b := by
  rw [le_antisymm_iff, le_antisymm_iff, nat_pow_le_iff a b m n ha hb,
    nat_pow_le_iff b a n m hb ha]

theorem roundHalfEven_ge_floor (x : ℝ) : ⌊x⌋ ≤ roundHalfEven x := by
  unfold roundHalfEven
  split
  · split <;> omega
  · rw [round_eq]
    exact Int.floor_le_floor (by linarith)

set_option maxHeartbeats 800000 in
/-- Faithfulness bridge for the ecosystem sub-score: the computable
`ecosystem_score` used throughout this file agrees, for every input, with
`ecoScoreLog`, the literal transcription of the source's
`max(1, min(15, round(log10(stars+1)/log10(max_stars+1) * 15)))` over the
idealized reals with Python's round-half-to-even.  The proof converts the
base-10 logarithm ratio to a natural-logarithm ratio, characterizes the
floor of the scaled ratio by the integer-power counts of `ecoFloor`, and
matches the half-comparison and banker's tie-break of `ecoRound` against
`roundHalfEven` through exact power comparisons. -/
theorem ecosystem_score_eq_log (s M : ℕ) :
    ecosystem_score s M = ecoScoreLog s M := by
  unfold ecosystem_score ecoScoreLog
  by_cases hM : M = 0
  · simp [hM]
  · rw [if_neg hM, if_neg hM]
    have ha1 : 1 ≤ s + 1 := by omega
    have hb1 : 1 ≤ M + 1 := by omega
    have hb2 : (1 : ℝ) < ((M : ℝ) + 1) := by
      have h1 : 1 ≤ M := by omega
      have : (1 : ℝ) ≤ (M : ℝ) := by exact_mod_cast h1
      linarith
    have ha0 : (0 : ℝ) < ((s : ℝ) + 1) := by positivity
    have hlb : 0 < Real.log ((M : ℝ) + 1) := Real.log_pos hb2
    have hla : 0 ≤ Real.log ((s : ℝ) + 1) := by
      have hs0 : (0 : ℝ) ≤ (s : ℝ) := Nat.cast_nonneg s
      exact Real.log_nonneg (by linarith)
    have hlogb : Real.logb 10 ((s : ℝ) + 1) / Real.logb 10 ((M : ℝ) + 1) * 15 =
        Real.log ((s : ℝ) + 1) / Real.log ((M : ℝ) + 1) * 15 := by
      have h10 : Real.log 10 ≠ 0 := ne_of_gt (Real.log_pos (by norm_num))
      rw [Real.logb, Real.logb]
      field_simp
    rw [hlogb]
    set L : ℝ := Real.log ((s : ℝ) + 1) / Real.log ((M : ℝ) + 1) * 15 with hLdef
    have hL0 : 0 ≤ L := mul_nonneg (div_nonneg hla hlb.le) (by norm_num)
    have hF0 : 0 ≤ ⌊L⌋ := Int.floor_nonneg.mpr hL0
    have hLlb : L * Real.log ((M : ℝ) + 1) = 15 * Real.log ((s : ℝ) + 1) := by
      rw [hLdef]
      field_simp
      ring
    have hcast_a : ((s + 1 : ℕ) : ℝ) = (s : ℝ) + 1 := by push_cast; ring
    have hcast_b : ((M + 1 : ℕ) : ℝ) = (M : ℝ) + 1 := by push_cast; ring
    have hle : ∀ k : ℕ, ((M + 1) ^ k ≤ (s + 1) ^ 15 ↔ (k : ℝ) ≤ L) := by
      intro k
      rw [nat_pow_le_iff (s + 1) (M + 1) 15 k ha1 hb1, hcast_a, hcast_b]
      constructor
      · intro h
        have h15 : ((15 : ℕ) : ℝ) = (15 : ℝ) := by norm_num
        rw [h15] at h
        have := h.trans_eq hLlb.symm
        exact le_of_mul_le_mul_right this hlb
      · intro h
        have hmul : (k : ℝ) * Real.log ((M : ℝ) + 1) ≤ L * Real.log ((M : ℝ) + 1) :=
          mul_le_mul_of_nonneg_right h hlb.le
        rw [hLlb] at hmul
        exact_mod_cast hmul
    have hlt : ∀ n : ℕ, ((M + 1) ^ n < (s + 1) ^ 30 ↔ (n : ℝ) < 2 * L) := by
      intro n
      rw [nat_pow_lt_iff (s + 1) (M + 1) 30 n ha1 hb1, hcast_a, hcast_b]
      have h2 : (2 * L) * Real.log ((M : ℝ) + 1) = 30 * Real.log ((s : ℝ) + 1) := by
        rw [mul_assoc, hLlb]; ring
      constructor
      · intro h
        have h30 : ((30 : ℕ) : ℝ) = (30 : ℝ) := by norm_num
        rw [h30] at h
        have := h.trans_eq h2.symm
        exact lt_of_mul_lt_mul_right this hlb.le
      · intro h
        have hmul : (n : ℝ) * Real.log ((M : ℝ) + 1) < (2 * L) * Real.log ((M : ℝ) + 1) :=
          mul_lt_mul_of_pos_right h hlb
        rw [h2] at hmul
        exact_mod_cast hmul
    have heq : ∀ n : ℕ, ((s + 1) ^ 30 = (M + 1) ^ n ↔ 2 * L = (n : ℝ)) := by
      intro n
      rw [nat_pow_eq_iff (s + 1) (M + 1) 30 n ha1 hb1, hcast_a, hcast_b]
      have h2 : (2 * L) * Real.log ((M : ℝ) + 1) = 30 * Real.log ((s : ℝ) + 1) := by
        rw [mul_assoc, hLlb]; ring
      constructor
      · intro h
        have h30 : ((30 : ℕ) : ℝ) = (30 : ℝ) := by norm_num
        rw [h30] at h
        have hh : (2 * L) * Real.log ((M : ℝ) + 1) = (n : ℝ) * Real.log ((M : ℝ) + 1) := by
          rw [h2, h]
        exact mul_right_cancel₀ (ne_of_gt hlb) hh
      · intro h
        have h30 : ((30 : ℕ) : ℝ) = (30 : ℝ) := by norm_num
        rw [h30, ← h2, h]
    by_cases hsM : s < M
    · have hab : (s : ℝ) + 1 < (M : ℝ) + 1 := by
        have : (s : ℝ) < (M : ℝ) := by exact_mod_cast hsM
        linarith
      have hlab : Real.log ((s : ℝ) + 1) < Real.log ((M : ℝ) + 1) :=
        Real.log_lt_log ha0 hab
      have hL15 : L < 15 := by
        rw [hLdef]
        have h1 : Real.log ((s : ℝ) + 1) / Real.log ((M : ℝ) + 1) < 1 :=
          (div_lt_one hlb).mpr hlab
        linarith
      have hF15 : ⌊L⌋ < 15 := Int.floor_lt.mpr (by exact_mod_cast hL15)
      have hfl : ecoFloor (s + 1) (M + 1) = ⌊L⌋.toNat := by
        unfold ecoFloor
        rw [List.countP_congr (q := fun k => decide (k < ⌊L⌋.toNat)) ?_]
        · rw [countP_range_lt]
          omega
        · intro k _
          simp only [decide_eq_true_eq]
          rw [hle (k + 1)]
          constructor
          · intro h
            have hz : ((k + 1 : ℕ) : ℤ) ≤ ⌊L⌋ := Int.le_floor.mpr (by exact_mod_cast h)
            omega
          · intro h
            have hk1 : ((k + 1 : ℕ) : ℤ) ≤ ⌊L⌋ := by omega
            exact_mod_cast Int.le_floor.mp hk1
      have hflZ : ((⌊L⌋.toNat : ℕ) : ℤ) = ⌊L⌋ := Int.toNat_of_nonneg hF0
      have hflR : ((⌊L⌋.toNat : ℕ) : ℝ) = ((⌊L⌋ : ℤ) : ℝ) := by exact_mod_cast hflZ
      have hfrect : Int.fract L = L - ⌊L⌋ := rfl
      have hfloorle : ((⌊L⌋ : ℤ) : ℝ) ≤ L := Int.floor_le L
      have hfloorgt : L < ((⌊L⌋ : ℤ) : ℝ) + 1 := Int.lt_floor_add_one L
      rw [hfl]
      rcases lt_trichotomy (Int.fract L) (1 / 2) with hf | hf | hf
      · rw [hfrect] at hf
        have hnotlt : ¬((M + 1) ^ (2 * ⌊L⌋.toNat + 1) < (s + 1) ^ 30) := by
          rw [hlt, not_lt]
          push_cast
          rw [hflR]
          linarith
        have hnoteq : ¬((s + 1) ^ 30 = (M + 1) ^ (2 * ⌊L⌋.toNat + 1)) := by
          rw [heq]
          push_cast
          rw [hflR]
          intro hcon
          linarith
        have hr : ecoRound (s + 1) (M + 1) ⌊L⌋.toNat = ⌊L⌋.toNat := by
          unfold ecoRound
          rw [if_neg]
          rintro (h | ⟨h, _⟩)
          · exact hnotlt h
          · exact hnoteq h
        have hrhe : roundHalfEven L = ⌊L⌋ := by
          unfold roundHalfEven
          rw [if_neg (by rw [hfrect]; intro hcon; linarith), round_eq]
          rw [Int.floor_eq_iff]
          constructor
          · linarith
          · linarith
        rw [hr, hrhe, hflZ]
      · rw [hfrect] at hf
        have hteq : (s + 1) ^ 30 = (M + 1) ^ (2 * ⌊L⌋.toNat + 1) := by
          rw [heq]
          push_cast
          rw [hflR]
          linarith
        have hnotlt : ¬((M + 1) ^ (2 * ⌊L⌋.toNat + 1) < (s + 1) ^ 30) := by
          rw [hlt, not_lt]
          push_cast
          rw [hflR]
          linarith
        have hrhe0 : roundHalfEven L =
            if ⌊L⌋ % 2 = 0 then ⌊L⌋ else ⌊L⌋ + 1 := by
          unfold roundHalfEven
          rw [if_pos (by rw [hfrect]; linarith)]
        rw [hrhe0]
        unfold ecoRound
        by_cases hpar : ⌊L⌋.toNat % 2 = 1
        · rw [if_pos (Or.inr ⟨hteq, hpar⟩), if_neg (by omega)]
          push_cast
          omega
        · rw [if_neg ?_]
          · rw [if_pos (by omega)]
            exact_mod_cast congrArg (fun z => max 1 (min 15 z)) hflZ
          · rintro (h | ⟨_, hp⟩)
            · exact hnotlt h
            · exact hpar hp
      · rw [hfrect] at hf
        have hplt : (M + 1) ^ (2 * ⌊L⌋.toNat + 1) < (s + 1) ^ 30 := by
          rw [hlt]
          push_cast
          rw [hflR]
          linarith
        have hr : ecoRound (s + 1) (M + 1) ⌊L⌋.toNat = ⌊L⌋.toNat + 1 := by
          unfold ecoRound
          rw [if_pos (Or.inl hplt)]
        have hrhe : roundHalfEven L = ⌊L⌋ + 1 := by
          unfold roundHalfEven
          rw [if_neg (by rw [hfrect]; intro hcon; linarith), round_eq]
          rw [Int.floor_eq_iff]
          constructor
          · push_cast
            linarith
          · push_cast
            linarith
        rw [hr, hrhe]
        push_cast
        omega
    · have hba : M + 1 ≤ s + 1 := by omega
      have hfl15 : ecoFloor (s + 1) (M + 1) = 15 := by
        unfold ecoFloor
        rw [List.countP_eq_length.mpr ?_, List.length_range]
        intro k hk
        simp only [decide_eq_true_eq]
        calc (M + 1) ^ (k + 1) ≤ (s + 1) ^ (k + 1) :=
              Nat.pow_le_pow_left hba (k + 1)
          _ ≤ (s + 1) ^ 15 :=
              Nat.pow_le_pow_right (by omega) (by
                have := List.mem_range.mp hk
                omega)
      have hL15 : (15 : ℝ) ≤ L := by
        have hcast : ((M : ℝ) + 1) ≤ ((s : ℝ) + 1) := by
          have : (M : ℝ) ≤ (s : ℝ) := by exact_mod_cast by omega
          linarith
        have hlab : Real.log ((M : ℝ) + 1) ≤ Real.log ((s : ℝ) + 1) :=
          Real.log_le_log (by linarith) hcast
        rw [hLdef]
        have h1 : (1 : ℝ) ≤ Real.log ((s : ℝ) + 1) / Real.log ((M : ℝ) + 1) :=
          (one_le_div hlb).mpr hlab
        linarith
      have hrheF : (15 : ℤ) ≤ roundHalfEven L := by
        have h15 : (15 : ℤ) ≤ ⌊L⌋ := Int.le_floor.mpr (by exact_mod_cast hL15)
        exact le_trans h15 (roundHalfEven_ge_floor L)
      have hr15 : 15 ≤ ecoRound (s + 1) (M + 1) 15 := by
        unfold ecoRound
        split <;> omega
      rw [hfl15]
      have hminL : min 15 ((ecoRound (s + 1) (M + 1) 15 : ℤ)) = 15 := by
        rw [min_eq_left]
        exact_mod_cast hr15
      have hminR : min 15 (roundHalfEven L) = 15 := min_eq_left hrheF
      rw [hminL, hminR]
